import Mathlib

/-!
Shallow embedding of the apple-catcher game core from
src/src/components/AppleCatcherGame.tsx.

The authoritative game state lives in the Phaser scene class GameScene:
score, gameOver, lastAppleTime, appleInterval, the plate sprite
(position and velocity) and the group of apple sprites.  The scene
methods update, spawnApple, catchApple, endGame and restart are
translated below as pure functions on an explicit GameState record.
Phaser engine behaviour that the scene relies on (arcade-physics body
integration between frames, overlap-callback dispatch, physics
pause/resume) is modelled explicitly: a physicsPaused flag, a tick
event that integrates positions by velocity times elapsed ms / 1000,
and a catch event that the engine only delivers for an apple that
still exists, overlaps the plate, and while physics is not paused.

Numbers are rationals: Phaser positions, velocities and times are
floats, and all arithmetic the scene performs on them is exact on the
values that occur, so the rational model is faithful.
-/

/-- An apple sprite: spawn x, current y, and the vertical velocity set
once at spawn time by spawnApple (setVelocityY). -/
structure Apple where
  x : ℚ
  y : ℚ
  vy : ℚ
deriving DecidableEq, Repr

/-- The authoritative state owned by GameScene, plus the arcade-physics
facts the scene manipulates (plate body, apple group, paused flag). -/
structure GameState where
  score : ℕ
  gameOver : Bool
  lastAppleTime : ℚ
  appleInterval : ℚ
  plateX : ℚ
  plateY : ℚ
  plateVX : ℚ
  plateVY : ℚ
  apples : List Apple
  physicsPaused : Bool
deriving DecidableEq, Repr

/-- State after create() and init(): score 0, active, timers at their
initial values (appleInterval field initialiser 1500), plate sprite at
(400, 550) with no velocity, empty apple group, physics running. -/
def initState : GameState :=
  { score := 0
    gameOver := false
    lastAppleTime := 0
    appleInterval := 1500
    plateX := 400
    plateY := 550
    plateVX := 0
    plateVY := 0
    apples := []
    physicsPaused := false }

/-- Per-frame input to update: the time argument Phaser passes, the
cursor key states, and the value Phaser.Math.Between(50, 750) returns
if a spawn happens this frame (randomness as an input). -/
structure FrameInput where
  time : ℚ
  leftDown : Bool
  rightDown : Bool
  spawnX : ℚ
deriving DecidableEq, Repr

/-- GameScene.spawnApple: create a sprite at (x, -50), set its
vertical velocity to 150 + score * 2, and add it to the apples group. -/
def spawnApple (x : ℚ) (s : GameState) : GameState :=
  { s with apples := s.apples ++ [{ x := x, y := -50, vy := 150 + (s.score : ℚ) * 2 }] }

/-- Cursor handling at the top of GameScene.update: setVelocityX(-300)
if left is down, else setVelocityX(300) if right is down, else 0. -/
def setPlateVelocity (inp : FrameInput) (s : GameState) : GameState :=
  { s with plateVX := if inp.leftDown then -300 else if inp.rightDown then 300 else 0 }

/-- Spawn block of GameScene.update: if time - lastAppleTime exceeds
appleInterval, spawn an apple, record lastAppleTime := time, and if
appleInterval is still above 500 decrease it by 10. -/
def trySpawn (time spawnX : ℚ) (s : GameState) : GameState :=
  if time - s.lastAppleTime > s.appleInterval then
    let s1 := { spawnApple spawnX s with lastAppleTime := time }
    if s1.appleInterval > 500 then { s1 with appleInterval := s1.appleInterval - 10 }
    else s1
  else s

/-- GameScene.endGame: set gameOver and pause the physics world
(updateGameState only mirrors state out to React). -/
def endGame (s : GameState) : GameState :=
  { s with gameOver := true, physicsPaused := true }

/-- Miss check at the bottom of GameScene.update: forEach over the
apple group, calling endGame for every apple whose y exceeds 600. -/
def checkMisses (s : GameState) : GameState :=
  s.apples.foldl (fun acc a => if a.y > 600 then endGame acc else acc) s

/-- GameScene.update: early return when gameOver, then plate velocity,
then the spawn block, then the miss check. -/
def update (inp : FrameInput) (s : GameState) : GameState :=
  if s.gameOver then s
  else checkMisses (trySpawn inp.time inp.spawnX (setPlateVelocity inp s))

/-- GameScene.catchApple: destroy the caught apple (remove it from the
group) and add one to score; the tween it starts only animates the
plate scaleY, which is cosmetic and outside the game state. -/
def catchApple (a : Apple) (s : GameState) : GameState :=
  { s with apples := s.apples.erase a, score := s.score + 1 }

/-- GameScene.restart: reset score, gameOver, timers, clear the apple
group, reset the plate position and velocity, and resume physics. -/
def restart (s : GameState) : GameState :=
  { s with score := 0
           gameOver := false
           lastAppleTime := 0
           appleInterval := 1500
           apples := []
           plateX := 400
           plateY := 550
           plateVX := 0
           plateVY := 0
           physicsPaused := false }

/-- Arcade-physics overlap test between the plate body (display size
100 by 20, centre (px, py)) and an apple body (30 by 30): axis-aligned
bounding boxes intersect. -/
def overlapsCheck (px py : ℚ) (a : Apple) : Prop :=
  |px - a.x| < 65 ∧ |py - a.y| < 25

instance decOverlapsCheck (px py : ℚ) (a : Apple) : Decidable (overlapsCheck px py a) := by
  unfold overlapsCheck; exact inferInstance

/-- Clamp of the plate centre by setCollideWorldBounds in the 800-wide
world: body half-width 50 keeps the centre between 50 and 750. -/
def clampPlateX (x : ℚ) : ℚ := min 750 (max 50 x)

/-- Arcade-physics integration for one engine step of dt milliseconds:
each body moves by velocity times dt / 1000; the plate is clamped to
the world bounds; apple velocities are untouched. -/
def moveBodies (dt : ℚ) (s : GameState) : GameState :=
  { s with plateX := clampPlateX (s.plateX + s.plateVX * dt / 1000)
           plateY := s.plateY + s.plateVY * dt / 1000
           apples := s.apples.map (fun a => { a with y := a.y + a.vy * dt / 1000 }) }

/-- Events that drive the scene: a frame call to update, an engine
physics step, an overlap-callback delivery for one apple, and the
restart command from the React shell. -/
inductive GameEvent where
  | frame (inp : FrameInput)
  | tick (dt : ℚ)
  | catchEv (a : Apple)
  | doRestart
deriving DecidableEq, Repr

/-- One event of the session.  The engine only integrates bodies and
only fires the overlap callback while physics is not paused, and only
for an apple that is still in the group and overlaps the plate. -/
def step (e : GameEvent) (s : GameState) : GameState :=
  match e with
  | .frame inp => update inp s
  | .tick dt => if s.physicsPaused then s else moveBodies dt s
  | .catchEv a =>
      if s.physicsPaused then s
      else if a ∈ s.apples ∧ overlapsCheck s.plateX s.plateY a then catchApple a s
      else s
  | .doRestart => restart s

/-- A session: fold the events over a starting state. -/
def run (es : List GameEvent) (s : GameState) : GameState :=
  es.foldl (fun t e => step e t) s

/-- The React shell around the scene: the mirrored score and gameOver
React state, the gameStarted flag, and the scene reference, which is
none until the Phaser game has been created. -/
structure ShellState where
  scene : Option GameState
  score : ℕ
  gameOver : Bool
  gameStarted : Bool
deriving DecidableEq, Repr

/-- The restart closure in gameData: sceneRef.current?.restart() (a
no-op on the scene when the reference is still null) then setScore(0),
setGameOver(false), setGameStarted(true). -/
def gameDataRestart (sh : ShellState) : ShellState :=
  { scene := sh.scene.map restart
    score := 0
    gameOver := false
    gameStarted := true }

/-- Interval values reachable in a session: 1500 minus at most one
hundred decrements of 10, so always at least 500. -/
def IntervalInv (s : GameState) : Prop :=
  ∃ k : ℕ, k ≤ 100 ∧ s.appleInterval = 1500 - 10 * k

/-- The startGame handler in the React component: setGameStarted(true),
setScore(0), setGameOver(false), and restart on the scene when the
game and scene references exist. -/
def startGame (sh : ShellState) : ShellState :=
  { scene := sh.scene.map restart
    score := 0
    gameOver := false
    gameStarted := true }

/-- A session reaching an active mid-game state with score 1: one
frame spawning an apple at x 400, one 4000 ms engine step dropping it
onto the plate, and the overlap callback catching it. -/
def demoEvents : List GameEvent :=
  [GameEvent.frame ⟨1501, false, false, 400⟩, GameEvent.tick 4000,
   GameEvent.catchEv ⟨400, 550, 150⟩]

/-- A concrete active state with one apple resting on the plate. -/
def oneAppleState : GameState := { initState with apples := [⟨400, 550, 150⟩] }

/-! Basic lemmas about the scene operations. -/

lemma restart_eq_initState (s : GameState) : restart s = initState := rfl

lemma endGame_idem (s : GameState) : endGame (endGame s) = endGame s := rfl

lemma foldl_endGame (l : List Apple) (s : GameState) :
    l.foldl (fun acc a => if a.y > 600 then endGame acc else acc) s
      = if l.any (fun a => decide (a.y > 600)) then endGame s else s := by
  induction l generalizing s with
  | nil => simp
  | cons a l ih =>
    simp only [List.foldl_cons, List.any_cons]
    by_cases h : a.y > 600
    · rw [if_pos h, ih]
      simp only [decide_eq_true h, Bool.true_or, endGame_idem, ite_self, if_true]
    · rw [if_neg h, ih]
      simp only [decide_eq_false h, Bool.false_or]

lemma checkMisses_eq (s : GameState) :
    checkMisses s = if s.apples.any (fun a => decide (a.y > 600)) then endGame s else s :=
  foldl_endGame s.apples s

lemma checkMisses_score (s : GameState) : (checkMisses s).score = s.score := by
  rw [checkMisses_eq]; split <;> rfl

lemma checkMisses_apples (s : GameState) : (checkMisses s).apples = s.apples := by
  rw [checkMisses_eq]; split <;> rfl

lemma checkMisses_appleInterval (s : GameState) :
    (checkMisses s).appleInterval = s.appleInterval := by
  rw [checkMisses_eq]; split <;> rfl

lemma checkMisses_lastAppleTime (s : GameState) :
    (checkMisses s).lastAppleTime = s.lastAppleTime := by
  rw [checkMisses_eq]; split <;> rfl

lemma trySpawn_score (t x : ℚ) (s : GameState) : (trySpawn t x s).score = s.score := by
  unfold trySpawn spawnApple
  by_cases h1 : t - s.lastAppleTime > s.appleInterval
  · by_cases h2 : s.appleInterval > 500
    · simp [h1, h2]
    · simp [h1, h2]
  · simp [h1]

lemma trySpawn_gameOver (t x : ℚ) (s : GameState) :
    (trySpawn t x s).gameOver = s.gameOver := by
  unfold trySpawn spawnApple
  by_cases h1 : t - s.lastAppleTime > s.appleInterval
  · by_cases h2 : s.appleInterval > 500
    · simp [h1, h2]
    · simp [h1, h2]
  · simp [h1]

lemma trySpawn_physicsPaused (t x : ℚ) (s : GameState) :
    (trySpawn t x s).physicsPaused = s.physicsPaused := by
  unfold trySpawn spawnApple
  by_cases h1 : t - s.lastAppleTime > s.appleInterval
  · by_cases h2 : s.appleInterval > 500
    · simp [h1, h2]
    · simp [h1, h2]
  · simp [h1]

lemma trySpawn_apples (t x : ℚ) (s : GameState) :
    (trySpawn t x s).apples =
      if t - s.lastAppleTime > s.appleInterval
      then s.apples ++ [⟨x, -50, 150 + (s.score : ℚ) * 2⟩] else s.apples := by
  unfold trySpawn spawnApple
  by_cases h1 : t - s.lastAppleTime > s.appleInterval
  · by_cases h2 : s.appleInterval > 500
    · simp [h1, h2]
    · simp [h1, h2]
  · simp [h1]

lemma trySpawn_appleInterval (t x : ℚ) (s : GameState) :
    (trySpawn t x s).appleInterval =
      if t - s.lastAppleTime > s.appleInterval ∧ s.appleInterval > 500
      then s.appleInterval - 10 else s.appleInterval := by
  unfold trySpawn spawnApple
  by_cases h1 : t - s.lastAppleTime > s.appleInterval
  · by_cases h2 : s.appleInterval > 500
    · simp [h1, h2]
    · simp [h1, h2]
  · simp [h1]

lemma trySpawn_lastAppleTime (t x : ℚ) (s : GameState) :
    (trySpawn t x s).lastAppleTime =
      if t - s.lastAppleTime > s.appleInterval then t else s.lastAppleTime := by
  unfold trySpawn spawnApple
  by_cases h1 : t - s.lastAppleTime > s.appleInterval
  · by_cases h2 : s.appleInterval > 500
    · simp [h1, h2]
    · simp [h1, h2]
  · simp [h1]

lemma update_of_gameOver (inp : FrameInput) (s : GameState) (h : s.gameOver = true) :
    update inp s = s := by
  simp [update, h]

lemma setPlateVelocity_score (inp : FrameInput) (s : GameState) :
    (setPlateVelocity inp s).score = s.score := rfl

lemma setPlateVelocity_gameOver (inp : FrameInput) (s : GameState) :
    (setPlateVelocity inp s).gameOver = s.gameOver := rfl

lemma setPlateVelocity_apples (inp : FrameInput) (s : GameState) :
    (setPlateVelocity inp s).apples = s.apples := rfl

lemma setPlateVelocity_appleInterval (inp : FrameInput) (s : GameState) :
    (setPlateVelocity inp s).appleInterval = s.appleInterval := rfl

lemma setPlateVelocity_lastAppleTime (inp : FrameInput) (s : GameState) :
    (setPlateVelocity inp s).lastAppleTime = s.lastAppleTime := rfl

lemma setPlateVelocity_physicsPaused (inp : FrameInput) (s : GameState) :
    (setPlateVelocity inp s).physicsPaused = s.physicsPaused := rfl

lemma spawned_not_past (x v : ℚ) :
    (decide ((⟨x, -50, v⟩ : Apple).y > 600)) = false :=
  decide_eq_false (by norm_num)

lemma any_trySpawn (t x : ℚ) (s : GameState) :
    ((trySpawn t x s).apples.any fun a => decide (a.y > 600))
      = (s.apples.any fun a => decide (a.y > 600)) := by
  rw [trySpawn_apples]; split
  · rw [List.any_append, List.any_cons, List.any_nil, spawned_not_past, Bool.or_false,
      Bool.or_false]
  · rfl

lemma update_score (inp : FrameInput) (s : GameState) :
    (update inp s).score = s.score := by
  by_cases h : s.gameOver = true
  · rw [update_of_gameOver inp s h]
  · have h' : s.gameOver = false := by simpa using h
    rw [update, h']
    simp only [Bool.false_eq_true, if_false]
    rw [checkMisses_score, trySpawn_score, setPlateVelocity_score]

lemma update_gameOver_eq (inp : FrameInput) (s : GameState) :
    (update inp s).gameOver = (s.gameOver || s.apples.any fun a => decide (a.y > 600)) := by
  by_cases h : s.gameOver = true
  · rw [update_of_gameOver inp s h, h, Bool.true_or]
  · have h' : s.gameOver = false := by simpa using h
    rw [update, h']
    simp only [Bool.false_eq_true, if_false]
    rw [checkMisses_eq, any_trySpawn, setPlateVelocity_apples, Bool.false_or]
    by_cases hA : (s.apples.any fun a => decide (a.y > 600)) = true
    · rw [if_pos hA, hA]; rfl
    · have hA' : (s.apples.any fun a => decide (a.y > 600)) = false := by simpa using hA
      rw [if_neg hA, hA', trySpawn_gameOver, setPlateVelocity_gameOver, h']

lemma update_physicsPaused_eq (inp : FrameInput) (s : GameState) (h' : s.gameOver = false) :
    (update inp s).physicsPaused
      = (s.physicsPaused || s.apples.any fun a => decide (a.y > 600)) := by
  rw [update, h']
  simp only [Bool.false_eq_true, if_false]
  rw [checkMisses_eq, any_trySpawn, setPlateVelocity_apples]
  by_cases hA : (s.apples.any fun a => decide (a.y > 600)) = true
  · rw [if_pos hA, hA, Bool.or_true]; rfl
  · have hA' : (s.apples.any fun a => decide (a.y > 600)) = false := by simpa using hA
    rw [if_neg hA, hA', Bool.or_false, trySpawn_physicsPaused, setPlateVelocity_physicsPaused]

lemma update_apples_eq (inp : FrameInput) (s : GameState) :
    (update inp s).apples =
      if s.gameOver = false ∧ inp.time - s.lastAppleTime > s.appleInterval
      then s.apples ++ [⟨inp.spawnX, -50, 150 + (s.score : ℚ) * 2⟩] else s.apples := by
  by_cases h : s.gameOver = true
  · have hcond : ¬(s.gameOver = false ∧ inp.time - s.lastAppleTime > s.appleInterval) := by
      rintro ⟨h1, -⟩; rw [h] at h1; cases h1
    rw [update_of_gameOver inp s h, if_neg hcond]
  · have h' : s.gameOver = false := by simpa using h
    rw [update, h']
    simp only [Bool.false_eq_true, if_false]
    rw [checkMisses_apples, trySpawn_apples, setPlateVelocity_lastAppleTime,
      setPlateVelocity_appleInterval, setPlateVelocity_apples, setPlateVelocity_score]
    by_cases hsp : inp.time - s.lastAppleTime > s.appleInterval
    · rw [if_pos hsp, if_pos ⟨by simp, hsp⟩]
    · rw [if_neg hsp, if_neg (by rintro ⟨-, hc⟩; exact hsp hc)]

lemma update_appleInterval_eq (inp : FrameInput) (s : GameState) :
    (update inp s).appleInterval =
      if s.gameOver = false ∧ inp.time - s.lastAppleTime > s.appleInterval
          ∧ s.appleInterval > 500
      then s.appleInterval - 10 else s.appleInterval := by
  by_cases h : s.gameOver = true
  · have hcond : ¬(s.gameOver = false ∧ inp.time - s.lastAppleTime > s.appleInterval
        ∧ s.appleInterval > 500) := by
      rintro ⟨h1, -⟩; rw [h] at h1; cases h1
    rw [update_of_gameOver inp s h, if_neg hcond]
  · have h' : s.gameOver = false := by simpa using h
    rw [update, h']
    simp only [Bool.false_eq_true, if_false]
    rw [checkMisses_appleInterval, trySpawn_appleInterval, setPlateVelocity_lastAppleTime,
      setPlateVelocity_appleInterval]
    by_cases hsp : inp.time - s.lastAppleTime > s.appleInterval
    · by_cases hi : s.appleInterval > 500
      · rw [if_pos ⟨hsp, hi⟩, if_pos ⟨by simp, hsp, hi⟩]
      · rw [if_neg (by rintro ⟨-, hc⟩; exact hi hc),
          if_neg (by rintro ⟨-, -, hc⟩; exact hi hc)]
    · rw [if_neg (by rintro ⟨hc, -⟩; exact hsp hc),
        if_neg (by rintro ⟨-, hc, -⟩; exact hsp hc)]

lemma update_lastAppleTime_eq (inp : FrameInput) (s : GameState) :
    (update inp s).lastAppleTime =
      if s.gameOver = false ∧ inp.time - s.lastAppleTime > s.appleInterval
      then inp.time else s.lastAppleTime := by
  by_cases h : s.gameOver = true
  · have hcond : ¬(s.gameOver = false ∧ inp.time - s.lastAppleTime > s.appleInterval) := by
      rintro ⟨h1, -⟩; rw [h] at h1; cases h1
    rw [update_of_gameOver inp s h, if_neg hcond]
  · have h' : s.gameOver = false := by simpa using h
    rw [update, h']
    simp only [Bool.false_eq_true, if_false]
    rw [checkMisses_lastAppleTime, trySpawn_lastAppleTime, setPlateVelocity_lastAppleTime,
      setPlateVelocity_appleInterval]
    by_cases hsp : inp.time - s.lastAppleTime > s.appleInterval
    · rw [if_pos hsp, if_pos ⟨by simp, hsp⟩]
    · rw [if_neg hsp, if_neg (by rintro ⟨-, hc⟩; exact hsp hc)]

/-! Claim theorems. -/

/-- C3: restart resets every component of the scene state, so from any
state it yields exactly the post-start initial state: score 0, not
over, empty apple collection, appleInterval 1500, lastAppleTime 0, and
the plate at (400, 550) with zero velocity. -/
theorem c3_restart_equals_initial_state (s : GameState) : restart s = initState :=
  restart_eq_initState s

/-- C5: a frame update ends with gameOver set exactly when it was
already set or some apple in the collection has y above 600, so the
game ends on the first frame on which an apple is past the bottom and
on no earlier frame; and the forEach miss check collapses to at most
one endGame transition per frame even with several apples past the
boundary. -/
theorem c5_miss_ends_game_on_that_frame (inp : FrameInput) (s : GameState) :
    (update inp s).gameOver = (s.gameOver || s.apples.any fun a => decide (a.y > 600)) ∧
    checkMisses s = (if s.apples.any (fun a => decide (a.y > 600)) then endGame s else s) :=
  ⟨update_gameOver_eq inp s, checkMisses_eq s⟩

/-- C7: an apple spawned at score s gets vertical speed 150 + s * 2 at
creation; engine integration preserves every apple speed, a frame
update at most appends one apple with that speed, and catchApple only
removes apples, so no operation ever modifies an existing speed. -/
theorem c7_apple_speed_frozen_at_spawn :
    (∀ x s, (spawnApple x s).apples = s.apples ++ [⟨x, -50, 150 + (s.score : ℚ) * 2⟩]) ∧
    (∀ dt s, (moveBodies dt s).apples.map Apple.vy = s.apples.map Apple.vy) ∧
    (∀ inp s, (update inp s).apples.map Apple.vy = s.apples.map Apple.vy ∨
      (update inp s).apples.map Apple.vy
        = s.apples.map Apple.vy ++ [150 + (s.score : ℚ) * 2]) ∧
    (∀ a s, ((catchApple a s).apples.map Apple.vy).Sublist (s.apples.map Apple.vy)) := by
  refine ⟨fun x s => rfl, fun dt s => ?_, fun inp s => ?_, fun a s => ?_⟩
  · have hm : (moveBodies dt s).apples
        = s.apples.map (fun a => { a with y := a.y + a.vy * dt / 1000 }) := rfl
    rw [hm, List.map_map]
    rfl
  · by_cases hc : s.gameOver = false ∧ inp.time - s.lastAppleTime > s.appleInterval
    · right; rw [update_apples_eq, if_pos hc, List.map_append]; rfl
    · left; rw [update_apples_eq, if_neg hc]
  · exact List.Sublist.map Apple.vy (List.erase_sublist a s.apples)

/-- C8: when gameOver is set, update returns at its first line and the
whole state, apples and timers included, is unchanged. -/
theorem c8_update_frozen_when_over (inp : FrameInput) (s : GameState)
    (h : s.gameOver = true) : update inp s = s :=
  update_of_gameOver inp s h

/-- Witness for the C8 theorem at a concrete frozen state. -/
theorem c8_witness :
    (endGame initState).gameOver = true ∧
    update ⟨0, false, false, 0⟩ (endGame initState) = endGame initState :=
  ⟨rfl, c8_update_frozen_when_over ⟨0, false, false, 0⟩ (endGame initState) rfl⟩

/-- C9: restart zeroes lastAppleTime while the frame clock keeps
running, so the first active frame after a restart at any time above
1500 satisfies the spawn condition and immediately spawns one apple
(with base speed 150, the score being 0). -/
theorem c9_immediate_spawn_after_restart (s : GameState) (inp : FrameInput)
    (h : 1500 < inp.time) :
    (restart s).lastAppleTime = 0 ∧
    inp.time - (restart s).lastAppleTime > (restart s).appleInterval ∧
    (update inp (restart s)).apples = [⟨inp.spawnX, -50, 150⟩] := by
  have hcond : inp.time - (restart s).lastAppleTime > (restart s).appleInterval := by
    show inp.time - 0 > 1500
    simpa using h
  refine ⟨rfl, hcond, ?_⟩
  rw [update_apples_eq, if_pos ⟨rfl, hcond⟩]
  show (restart s).apples ++ [⟨inp.spawnX, -50, 150 + ((restart s).score : ℚ) * 2⟩] = _
  simp [restart]

/-- Witness for the C9 theorem at a concrete restart and frame. -/
theorem c9_witness :
    (1500 : ℚ) < 1501 ∧
    ((restart initState).lastAppleTime = 0 ∧
      (1501 : ℚ) - (restart initState).lastAppleTime > (restart initState).appleInterval ∧
      (update ⟨1501, false, false, 400⟩ (restart initState)).apples = [⟨400, -50, 150⟩]) :=
  ⟨by norm_num, c9_immediate_spawn_after_restart initState ⟨1501, false, false, 400⟩
    (by norm_num)⟩

/-- C10: catchApple only adds one to score and erases the caught apple
from the collection; gameOver, the spawn timers, the paused flag and
the plate position and velocity are all left unchanged (its tween only
animates the plate scaleY, a cosmetic effect). -/
theorem c10_catch_changes_only_score_and_apples (a : Apple) (s : GameState) :
    (catchApple a s).score = s.score + 1 ∧
    (catchApple a s).apples = s.apples.erase a ∧
    (catchApple a s).gameOver = s.gameOver ∧
    (catchApple a s).appleInterval = s.appleInterval ∧
    (catchApple a s).lastAppleTime = s.lastAppleTime ∧
    (catchApple a s).plateX = s.plateX ∧
    (catchApple a s).plateY = s.plateY ∧
    (catchApple a s).plateVX = s.plateVX ∧
    (catchApple a s).plateVY = s.plateVY ∧
    (catchApple a s).physicsPaused = s.physicsPaused :=
  ⟨rfl, rfl, rfl, rfl, rfl, rfl, rfl, rfl, rfl, rfl⟩

/-! Lemmas about single events and sessions. -/

lemma run_nil (s : GameState) : run [] s = s := rfl

lemma run_cons (e : GameEvent) (es : List GameEvent) (s : GameState) :
    run (e :: es) s = run es (step e s) := rfl

lemma step_score_mono (e : GameEvent) (s : GameState) (h : e ≠ GameEvent.doRestart) :
    s.score ≤ (step e s).score := by
  cases e with
  | frame inp => simp only [step]; rw [update_score]
  | tick dt =>
    simp only [step]; split
    · exact le_refl _
    · exact le_of_eq rfl
  | catchEv a =>
    simp only [step]; split
    · exact le_refl _
    · split
      · exact Nat.le_succ _
      · exact le_refl _
  | doRestart => exact absurd rfl h

lemma step_frozen (e : GameEvent) (s : GameState) (h : e ≠ GameEvent.doRestart)
    (hg : s.gameOver = true) (hp : s.physicsPaused = true) : step e s = s := by
  cases e with
  | frame inp => simp only [step]; exact update_of_gameOver inp s hg
  | tick dt => simp only [step, hp, if_true]
  | catchEv a => simp only [step, hp, if_true]
  | doRestart => exact absurd rfl h

lemma step_paused_eq_gameOver (e : GameEvent) (s : GameState)
    (h : s.physicsPaused = s.gameOver) :
    (step e s).physicsPaused = (step e s).gameOver := by
  cases e with
  | frame inp =>
    simp only [step]
    by_cases hg : s.gameOver = true
    · rw [update_of_gameOver inp s hg]; exact h
    · have hg' : s.gameOver = false := by simpa using hg
      rw [update_physicsPaused_eq inp s hg', update_gameOver_eq, h, hg', Bool.false_or]
  | tick dt =>
    simp only [step]; split
    · exact h
    · exact h
  | catchEv a =>
    simp only [step]; split
    · exact h
    · split
      · exact h
      · exact h
  | doRestart => rfl

lemma score_mono_run : ∀ (es : List GameEvent) (s : GameState),
    (∀ e ∈ es, e ≠ GameEvent.doRestart) → s.physicsPaused = s.gameOver →
    s.score ≤ (run es s).score ∧ (s.gameOver = true → (run es s).score = s.score) := by
  intro es
  induction es with
  | nil => exact fun s _ _ => ⟨le_refl _, fun _ => rfl⟩
  | cons e es ih =>
    intro s hnr hinv
    have he : e ≠ GameEvent.doRestart := hnr e (List.mem_cons_self e es)
    have hes : ∀ x ∈ es, x ≠ GameEvent.doRestart :=
      fun x hx => hnr x (List.mem_cons_of_mem e hx)
    rw [run_cons]
    constructor
    · exact le_trans (step_score_mono e s he)
        (ih (step e s) hes (step_paused_eq_gameOver e s hinv)).1
    · intro hg
      have hp : s.physicsPaused = true := by rw [hinv, hg]
      rw [step_frozen e s he hg hp]
      exact (ih s hes hinv).2 hg

/-- C2: over any sequence of frame updates, engine steps and catch
events with no restart, the score never decreases, and from a state
where gameOver is set (with physics paused accordingly, as endGame
leaves it) the score does not change at all. -/
theorem c2_score_monotone_and_frozen (es : List GameEvent) (s : GameState)
    (hnr : ∀ e ∈ es, e ≠ GameEvent.doRestart)
    (hinv : s.physicsPaused = s.gameOver) :
    s.score ≤ (run es s).score ∧ (s.gameOver = true → (run es s).score = s.score) :=
  score_mono_run es s hnr hinv

/-- Witness for the C2 theorem on a concrete frozen state and events. -/
theorem c2_witness :
    (∀ e ∈ [GameEvent.tick 5], e ≠ GameEvent.doRestart) ∧
    (endGame initState).physicsPaused = (endGame initState).gameOver ∧
    ((endGame initState).score ≤ (run [GameEvent.tick 5] (endGame initState)).score ∧
      ((endGame initState).gameOver = true →
        (run [GameEvent.tick 5] (endGame initState)).score = (endGame initState).score)) :=
  ⟨by decide, rfl,
    c2_score_monotone_and_frozen [GameEvent.tick 5] (endGame initState) (by decide) rfl⟩

/-! Spawn-interval invariant. -/


lemma intervalInv_initState : IntervalInv initState := by
  refine ⟨0, by norm_num, ?_⟩
  show (1500 : ℚ) = 1500 - 10 * ((0 : ℕ) : ℚ)
  norm_num

lemma intervalInv_of_eq {s t : GameState} (he : t.appleInterval = s.appleInterval)
    (h : IntervalInv s) : IntervalInv t := by
  obtain ⟨k, hk, h2⟩ := h
  exact ⟨k, hk, he ▸ h2⟩

lemma intervalInv_update (inp : FrameInput) (s : GameState) (h : IntervalInv s) :
    IntervalInv (update inp s) := by
  obtain ⟨k, hk, he⟩ := h
  by_cases hc : s.gameOver = false ∧ inp.time - s.lastAppleTime > s.appleInterval
      ∧ s.appleInterval > 500
  · refine ⟨k + 1, ?_, ?_⟩
    · have h500 : s.appleInterval > 500 := hc.2.2
      rw [he] at h500
      have hq : (k : ℚ) < 100 := by linarith
      have hn : k < 100 := by exact_mod_cast hq
      omega
    · rw [update_appleInterval_eq, if_pos hc, he]
      push_cast
      ring
  · exact ⟨k, hk, by rw [update_appleInterval_eq, if_neg hc, he]⟩

lemma intervalInv_step (e : GameEvent) (s : GameState) (h : IntervalInv s) :
    IntervalInv (step e s) := by
  cases e with
  | frame inp => exact intervalInv_update inp s h
  | tick dt =>
    refine intervalInv_of_eq ?_ h
    simp only [step]; split
    · rfl
    · rfl
  | catchEv a =>
    refine intervalInv_of_eq ?_ h
    simp only [step]; split
    · rfl
    · split
      · rfl
      · rfl
  | doRestart =>
    refine ⟨0, by norm_num, ?_⟩
    show (1500 : ℚ) = 1500 - 10 * ((0 : ℕ) : ℚ)
    norm_num

lemma intervalInv_run : ∀ (es : List GameEvent) (s : GameState),
    IntervalInv s → IntervalInv (run es s) := by
  intro es
  induction es with
  | nil => exact fun s h => h
  | cons e es ih => exact fun s h => ih (step e s) (intervalInv_step e s h)

lemma intervalInv_ge (s : GameState) (h : IntervalInv s) : 500 ≤ s.appleInterval := by
  obtain ⟨k, hk, he⟩ := h
  rw [he]
  have hq : (k : ℚ) ≤ 100 := by exact_mod_cast hk
  linarith

lemma update_appleInterval_le (inp : FrameInput) (s : GameState) :
    (update inp s).appleInterval ≤ s.appleInterval := by
  rw [update_appleInterval_eq]
  split
  · linarith
  · exact le_refl _

lemma step_appleInterval_le (e : GameEvent) (s : GameState) (h : e ≠ GameEvent.doRestart) :
    (step e s).appleInterval ≤ s.appleInterval := by
  cases e with
  | frame inp => exact update_appleInterval_le inp s
  | tick dt =>
    simp only [step]; split
    · exact le_refl _
    · exact le_of_eq rfl
  | catchEv a =>
    simp only [step]; split
    · exact le_refl _
    · split
      · exact le_of_eq rfl
      · exact le_refl _
  | doRestart => exact absurd rfl h

/-- C1: a frame update decreases appleInterval by exactly 10 when an
apple is spawned with the interval above 500 and leaves it unchanged
otherwise; no event other than restart ever increases it; in every
session from the initial state it never goes below 500; and restart
resets it to 1500. -/
theorem c1_interval_monotone_floored :
    (∀ inp s, (update inp s).appleInterval =
        if s.gameOver = false ∧ inp.time - s.lastAppleTime > s.appleInterval
            ∧ s.appleInterval > 500
        then s.appleInterval - 10 else s.appleInterval) ∧
    (∀ e s, e ≠ GameEvent.doRestart → (step e s).appleInterval ≤ s.appleInterval) ∧
    (∀ es, 500 ≤ (run es initState).appleInterval) ∧
    (∀ s, (restart s).appleInterval = 1500) :=
  ⟨update_appleInterval_eq, step_appleInterval_le,
    fun es => intervalInv_ge _ (intervalInv_run es initState intervalInv_initState),
    fun _ => rfl⟩

/-- Witness for the C1 theorem at a concrete non-restart event. -/
theorem c1_witness :
    (GameEvent.tick 5 ≠ GameEvent.doRestart) ∧
    (step (GameEvent.tick 5) initState).appleInterval ≤ initState.appleInterval :=
  ⟨by decide, c1_interval_monotone_floored.2.1 (GameEvent.tick 5) initState (by decide)⟩




/-- C6: while physics runs, the overlap callback on an apple that is
in the collection and overlaps the plate removes it and adds exactly 1
to score, decreasing that apple value's multiplicity by one; and a
catch event for an apple that no longer exists in the collection does
nothing, so a destroyed apple is never counted a second time. -/
theorem c6_catch_scores_exactly_once (a : Apple) (s : GameState) :
    (s.physicsPaused = false → a ∈ s.apples → overlapsCheck s.plateX s.plateY a →
      (step (GameEvent.catchEv a) s).score = s.score + 1 ∧
      (step (GameEvent.catchEv a) s).apples = s.apples.erase a ∧
      (step (GameEvent.catchEv a) s).apples.count a = s.apples.count a - 1) ∧
    (a ∉ s.apples → step (GameEvent.catchEv a) s = s) := by
  constructor
  · intro hp hm ho
    have hnp : ¬ (s.physicsPaused = true) := by rw [hp]; exact Bool.false_ne_true
    have hstep : step (GameEvent.catchEv a) s = catchApple a s := by
      simp only [step]
      rw [if_neg hnp, if_pos ⟨hm, ho⟩]
    rw [hstep]
    refine ⟨rfl, rfl, ?_⟩
    show (s.apples.erase a).count a = s.apples.count a - 1
    exact List.count_erase_self a s.apples
  · intro hm
    by_cases hp : s.physicsPaused = true
    · simp [step, hp]
    · simp only [step]
      rw [if_neg hp, if_neg (by rintro ⟨hmem, -⟩; exact hm hmem)]

/-- Witness for the C6 theorem: catching the one apple resting on the
plate in a concrete state. -/
theorem c6_witness :
    oneAppleState.physicsPaused = false ∧
    (⟨400, 550, 150⟩ : Apple) ∈ oneAppleState.apples ∧
    overlapsCheck oneAppleState.plateX oneAppleState.plateY ⟨400, 550, 150⟩ ∧
    ((step (GameEvent.catchEv ⟨400, 550, 150⟩) oneAppleState).score
        = oneAppleState.score + 1 ∧
      (step (GameEvent.catchEv ⟨400, 550, 150⟩) oneAppleState).apples
        = oneAppleState.apples.erase ⟨400, 550, 150⟩ ∧
      (step (GameEvent.catchEv ⟨400, 550, 150⟩) oneAppleState).apples.count ⟨400, 550, 150⟩
        = oneAppleState.apples.count ⟨400, 550, 150⟩ - 1) :=
  ⟨rfl, by simp [oneAppleState], by simp [oneAppleState, initState, overlapsCheck],
    (c6_catch_scores_exactly_once ⟨400, 550, 150⟩ oneAppleState).1 rfl
      (by simp [oneAppleState]) (by simp [oneAppleState, initState, overlapsCheck])⟩

/-- C4 counterexample: a reachable active state with score 1 on which
restart is not a no-op: it sends the state back to the initial one, so
issuing restart while the game is active loses the current game. -/
theorem c4_counterexample :
    (run demoEvents initState).gameOver = false ∧
    (run demoEvents initState).score = 1 ∧
    restart (run demoEvents initState) ≠ run demoEvents initState := by
  have h1 : step (GameEvent.frame ⟨1501, false, false, 400⟩) initState
      = { score := 0, gameOver := false, lastAppleTime := 1501, appleInterval := 1490,
          plateX := 400, plateY := 550, plateVX := 0, plateVY := 0,
          apples := [⟨400, -50, 150⟩], physicsPaused := false } := by
    show update ⟨1501, false, false, 400⟩ initState = _
    norm_num [update, checkMisses, trySpawn, spawnApple, setPlateVelocity, initState]
  have h2 : step (GameEvent.tick 4000)
        { score := 0, gameOver := false, lastAppleTime := 1501, appleInterval := 1490,
          plateX := 400, plateY := 550, plateVX := 0, plateVY := 0,
          apples := [⟨400, -50, 150⟩], physicsPaused := false }
      = { score := 0, gameOver := false, lastAppleTime := 1501, appleInterval := 1490,
          plateX := 400, plateY := 550, plateVX := 0, plateVY := 0,
          apples := [⟨400, 550, 150⟩], physicsPaused := false } := by
    norm_num [step, moveBodies, clampPlateX]
  have h3 : step (GameEvent.catchEv ⟨400, 550, 150⟩)
        { score := 0, gameOver := false, lastAppleTime := 1501, appleInterval := 1490,
          plateX := 400, plateY := 550, plateVX := 0, plateVY := 0,
          apples := [⟨400, 550, 150⟩], physicsPaused := false }
      = { score := 1, gameOver := false, lastAppleTime := 1501, appleInterval := 1490,
          plateX := 400, plateY := 550, plateVX := 0, plateVY := 0,
          apples := [], physicsPaused := false } := by
    norm_num [step, catchApple, overlapsCheck, List.erase_cons]
  have hrun : run demoEvents initState
      = { score := 1, gameOver := false, lastAppleTime := 1501, appleInterval := 1490,
          plateX := 400, plateY := 550, plateVX := 0, plateVY := 0,
          apples := [], physicsPaused := false } := by
    have hfold : run demoEvents initState
        = step (GameEvent.catchEv ⟨400, 550, 150⟩)
            (step (GameEvent.tick 4000)
              (step (GameEvent.frame ⟨1501, false, false, 400⟩) initState)) := rfl
    rw [hfold, h1, h2, h3]
  refine ⟨by rw [hrun], by rw [hrun], ?_⟩
  rw [hrun, restart_eq_initState]
  intro h
  exact absurd (congrArg GameState.score h) (by decide)

/-- C4 amended: restart has no already-active guard: from every scene
state it performs the full reset to the initial state, so it is
idempotent as a reset but not a no-op during an active game; the
shell-level restart closure called before the scene exists leaves the
absent scene untouched and yields the well-formed shell state with
score 0, game not over, game started; and the start handler performs
exactly the same updates as the restart closure. -/
theorem c4_amended_no_guard_full_reset (s : GameState) (sh : ShellState) :
    restart s = initState ∧
    restart (restart s) = restart s ∧
    startGame sh = gameDataRestart sh ∧
    (sh.scene = none → gameDataRestart sh = ⟨none, 0, false, true⟩) := by
  refine ⟨restart_eq_initState s, rfl, rfl, fun hn => ?_⟩
  simp [gameDataRestart, hn]

/-- Witness for the C4 amended theorem: the restart closure invoked
with no scene yet created. -/
theorem c4_witness :
    gameDataRestart ⟨none, 3, true, false⟩ = ⟨none, 0, false, true⟩ :=
  (c4_amended_no_guard_full_reset (endGame initState) ⟨none, 3, true, false⟩).2.2.2 rfl
